import Mathlib

/-!
Verification development for the HealthMate repository (Express/MongoDB
backend of a bilingual health-record application).

The relevant backend code is shallowly embedded:
- a JSON value type with an executable parser models `JSON.parse`;
- `parseGeminiResponse` / `createFallbackResponse` embed the AI-response
  adapter from `services/geminiService.js`;
- the upload, delete and download handlers of `routes/file.js`, together
  with the multer middleware configuration, are embedded as pure functions
  over explicit request data and oracles for the external object-storage
  service;
- the `AiInsight` creation path and its pre-save disclaimer defaulting are
  embedded over the JSON payloads the route reads;
- the Vitals schema validation, the `formattedValue` virtual and the BMI
  pre-save hook of `models/Vitals.js` are embedded over a list of rows
  standing for the vitals collection;
- `sensitiveOperationLimit` of `middleware/auth.js` is embedded as a step
  function on the per-identity attempt list.

Database writes are modelled as always succeeding; timestamps are integer
milliseconds; JSON numbers are modelled as integers and JS `Number` values
for vitals as rationals (the analysed behaviour does not depend on
floating-point rounding).
-/

namespace HealthMate

/-- JSON values as produced by `JSON.parse` (numbers restricted to
integers, which covers all values relevant here). -/
inductive Json where
  | null
  | bool (b : Bool)
  | num (n : Int)
  | str (s : String)
  | arr (elements : List Json)
  | obj (entries : List (String × Json))

/-- Property access `o[k]` on a JS value: on objects the last binding for
the key wins (as in `JSON.parse`); on anything else it is `undefined`. -/
def Json.getField : Json → String → Option Json
  | .obj fs, k => fs.foldl (fun acc p => if p.fst == k then some p.snd else acc) none
  | _, _ => none

/-- JS truthiness of a JSON value. -/
def Json.truthy : Json → Bool
  | .null => false
  | .bool b => b
  | .num n => n != 0
  | .str s => s != ""
  | .arr _ => true
  | .obj _ => true

/-- JS `a || b` applied to a possibly-undefined property and a default. -/
def jsOr (v : Option Json) (dflt : Json) : Json :=
  match v with
  | some j => if j.truthy then j else dflt
  | none => dflt

/-! JSON parsing (`JSON.parse`): a fueled recursive-descent parser. -/

def isWs (c : Char) : Bool :=
  c.toNat == 32 || c.toNat == 9 || c.toNat == 10 || c.toNat == 13

def skipWs (cs : List Char) : List Char := cs.dropWhile isWs

def escPairs : List (Char × Char) :=
  [('"', '"'), ('\\', '\\'), ('/', '/'), ('n', '\n'), ('t', '\t'), ('r', '\r')]

def escChar (c : Char) : Option Char :=
  (escPairs.find? (fun p => p.fst == c)).map (fun p => p.snd)

/-- Parse the body of a string literal (after the opening quote), up to and
including the closing quote. -/
def parseStrChars : List Char → Option (List Char × List Char)
  | [] => none
  | '"' :: rest => some ([], rest)
  | '\\' :: [] => none
  | '\\' :: e :: rest2 =>
    match escChar e with
    | none => none
    | some c =>
      match parseStrChars rest2 with
      | none => none
      | some (s, r) => some (c :: s, r)
  | c :: rest =>
    match parseStrChars rest with
    | none => none
    | some (s, r) => some (c :: s, r)

def digitVal (c : Char) : Nat := c.toNat - 48

def digitsToNat (ds : List Char) : Nat :=
  ds.foldl (fun a c => 10 * a + digitVal c) 0

def parseNum (cs : List Char) : Option (Int × List Char) :=
  let signed := match cs with
    | '-' :: r => (true, r)
    | _ => (false, cs)
  let ds := signed.snd.takeWhile Char.isDigit
  if ds.isEmpty then none
  else
    let v : Int := digitsToNat ds
    some (if signed.fst then -v else v, signed.snd.dropWhile Char.isDigit)

/-- Parsing mode: a single value, the element list of an array (after the
opening bracket, known non-empty), or the field list of an object. -/
inductive JMode where
  | value
  | arrTail
  | objTail

/-- Intermediate parse results for the three modes. -/
inductive JOut where
  | val (j : Json)
  | items (is : List Json)
  | fields (fs : List (String × Json))

/-- Consume an expected literal suffix character by character. -/
def expectLit : List Char → List Char → Option (List Char)
  | [], cs => some cs
  | l :: ls, c :: cs => if c == l then expectLit ls cs else none
  | _ :: _, [] => none

/-- The core recursive-descent parser, structurally recursive on fuel so
that concrete inputs evaluate by definitional reduction. -/
def parseCore : Nat → JMode → List Char → Option (JOut × List Char)
  | 0, _, _ => none
  | fuel + 1, .value, cs =>
    match skipWs cs with
    | [] => none
    | c :: r =>
      if c == '"' then
        match parseStrChars r with
        | some (s, r2) => some (.val (.str (String.mk s)), r2)
        | none => none
      else if c == '[' then
        match skipWs r with
        | ']' :: r2 => some (.val (.arr []), r2)
        | r2 =>
          match parseCore fuel .arrTail r2 with
          | some (.items is, r3) => some (.val (.arr is), r3)
          | _ => none
      else if c == '{' then
        match skipWs r with
        | '}' :: r2 => some (.val (.obj []), r2)
        | r2 =>
          match parseCore fuel .objTail r2 with
          | some (.fields fs, r3) => some (.val (.obj fs), r3)
          | _ => none
      else if c == 'n' then
        (expectLit ['u', 'l', 'l'] r).map (fun r2 => (.val .null, r2))
      else if c == 't' then
        (expectLit ['r', 'u', 'e'] r).map (fun r2 => (.val (.bool true), r2))
      else if c == 'f' then
        (expectLit ['a', 'l', 's', 'e'] r).map (fun r2 => (.val (.bool false), r2))
      else
        match parseNum (c :: r) with
        | some (n, r2) => some (.val (.num n), r2)
        | none => none
  | fuel + 1, .arrTail, cs =>
    match parseCore fuel .value cs with
    | some (.val v, r) =>
      (match skipWs r with
      | ',' :: r2 =>
        match parseCore fuel .arrTail r2 with
        | some (.items vs, r3) => some (.items (v :: vs), r3)
        | _ => none
      | ']' :: r2 => some (.items [v], r2)
      | _ => none)
    | _ => none
  | fuel + 1, .objTail, cs =>
    match skipWs cs with
    | '"' :: r =>
      match parseStrChars r with
      | none => none
      | some (k, r2) =>
        match skipWs r2 with
        | ':' :: r3 =>
          match parseCore fuel .value r3 with
          | some (.val v, r4) =>
            (match skipWs r4 with
            | ',' :: r5 =>
              match parseCore fuel .objTail r5 with
              | some (.fields fs, r6) => some (.fields ((String.mk k, v) :: fs), r6)
              | _ => none
            | '}' :: r5 => some (.fields [(String.mk k, v)], r5)
            | _ => none)
          | _ => none
        | _ => none
    | _ => none

def parseVal (fuel : Nat) (cs : List Char) : Option (Json × List Char) :=
  match parseCore fuel .value cs with
  | some (.val j, r) => some (j, r)
  | _ => none

/-- `JSON.parse`: the whole input (up to surrounding whitespace) must be one
JSON value. -/
def parseJson (s : String) : Option Json :=
  match parseVal (2 * s.length + 2) s.toList with
  | some (v, rest) => if (skipWs rest).isEmpty then some v else none
  | none => none

/-! The AI Analysis Adapter (`services/geminiService.js`): response parsing. -/

/-- Index of the first occurrence of `c`, if any. -/
def firstIdxOf (c : Char) : List Char → Option Nat
  | [] => none
  | x :: xs => if x == c then some 0 else (firstIdxOf c xs).map (· + 1)

/-- The substring matched by the greedy regex on `\x7b[\s\S]*\x7d`: it runs
from the first opening brace of the text to the last closing brace (the
match exists when the last closing brace lies strictly after the first
opening brace). -/
def extractJsonSlice (s : String) : Option String :=
  match firstIdxOf '{' s.toList, firstIdxOf '}' s.toList.reverse with
  | some i, some jr =>
    if i < s.toList.length - 1 - jr then
      some (String.mk ((s.toList.drop i).take (s.toList.length - 1 - jr - i + 1)))
    else none
  | _, _ => none

/-- JS `text.substring(0, n)` (code-unit count is character count for the
texts considered here). -/
def jsSubstring0 (text : String) (n : Nat) : String := String.mk (text.toList.take n)

def aiDisclaimerBlock : Json := .obj [
  ("english", .str "This analysis is generated by AI and is for informational purposes only. Always consult with a qualified healthcare professional for medical advice."),
  ("urdu", .str "Yeh analysis AI ke zariye generate hui hai aur sirf information ke liye hai. Medical advice ke liye hamesha qualified doctor se consult karein.")]

def medicalDisclaimerBlock : Json := .obj [
  ("english", .str "This information should not replace professional medical advice, diagnosis, or treatment. Seek immediate medical attention for emergencies."),
  ("urdu", .str "Yeh information professional medical advice, diagnosis ya treatment ka replacement nahi hai. Emergency cases mein immediately doctor se contact karein.")]

def defaultDisclaimers : Json :=
  .obj [("aiDisclaimer", aiDisclaimerBlock), ("medicalDisclaimer", medicalDisclaimerBlock)]

def fallbackDoctorQuestion : Json := .obj [
  ("question", .obj [
    ("english", .str "Can you explain the key findings in my report?"),
    ("urdu", .str "Kya aap mere report ke main findings explain kar sakte hain?")]),
  ("category", .str "general"),
  ("priority", .str "high")]

/-- `GeminiService.createFallbackResponse`. -/
def createFallbackResponse (text : String) : Json := .obj [
  ("summary", .obj [
    ("english", .str (jsSubstring0 text 500 ++ "...")),
    ("urdu", .str "AI analysis complete. Please consult your doctor for detailed explanation.")]),
  ("keyFindings", .arr []),
  ("abnormalValues", .arr []),
  ("doctorQuestions", .arr [fallbackDoctorQuestion]),
  ("recommendations", .obj [("lifestyle", .arr []), ("medical", .arr [])]),
  ("riskFactors", .arr []),
  ("followUpSuggestions", .arr []),
  ("confidence", .num 70),
  ("disclaimers", defaultDisclaimers)]

/-- `GeminiService.parseGeminiResponse`: extract the greedy brace-delimited
substring and `JSON.parse` it; on absence or parse failure, fall back. -/
def parseGeminiResponse (text : String) : Json :=
  match extractJsonSlice text with
  | some s =>
    match parseJson s with
    | some v => v
    | none => createFallbackResponse text
  | none => createFallbackResponse text

/-!
The file routes (`routes/file.js`) with the multer middleware configured at
its top, the `AiInsight` creation path (`models/AiInsight.js` pre-save hook
together with the route's constructor call), and the post-response analysis
completion step.
-/

/-- JS `s.startsWith(p)`. -/
def strStartsWith (s p : String) : Bool :=
  s.toList.take p.toList.length == p.toList

/-- One file of a multipart request as multer presents it. -/
structure IncomingFile where
  originalName : String
  mimetype : String
  size : Nat
deriving DecidableEq, Repr

/-- The `fileFilter` of the upload multer instance: images and PDFs are
accepted; anything else is reported through the error callback. -/
def fileFilterAccepts (f : IncomingFile) : Bool :=
  strStartsWith f.mimetype "image/" || f.mimetype == "application/pdf"

/-- `limits.fileSize`: 10MB. -/
def fileSizeLimit : Nat := 10 * 1024 * 1024

/-- `upload.array('files', 5)`. -/
def maxFileCount : Nat := 5

/-- Scan the incoming files in order; a file rejected by `fileFilter`
aborts the whole request with the filter's error, and a file over the size
limit aborts it with `LIMIT_FILE_SIZE` (multer semantics: an error passed
to the filter callback, or a hit limit, aborts the request instead of
skipping the file). -/
def multerScan : List IncomingFile → Except String (List IncomingFile)
  | [] => .ok []
  | f :: fs =>
    if !fileFilterAccepts f then .error "Only images and PDF files are allowed"
    else if f.size > fileSizeLimit then .error "LIMIT_FILE_SIZE"
    else
      match multerScan fs with
      | .ok rest => .ok (f :: rest)
      | .error e => .error e

/-- The `upload.array` middleware: too many files or any per-file violation
aborts the request; otherwise the handler runs with all files. -/
def multerArray (files : List IncomingFile) : Except String (List IncomingFile) :=
  if files.length > maxFileCount then .error "LIMIT_UNEXPECTED_FILE"
  else multerScan files

/-- Result of one `uploadService.uploadToCloudinary` call. -/
structure CloudUploadResult where
  publicId : String
  url : String
  format : String
deriving DecidableEq, Repr

/-- One entry of `UploadedFile.files`. -/
structure StoredFile where
  originalName : String
  cloudinaryId : String
  url : String
  format : String
  size : Nat
  mimeType : String
deriving DecidableEq, Repr

inductive FileStatus where
  | uploaded
  | analyzing
  | analyzed
  | failed
deriving DecidableEq, Repr

/-- An `UploadedFile` (`models/File.js`) record. -/
structure FileRecord where
  user : String
  id : String
  reportType : String
  reportDate : String
  doctorName : String
  hospitalName : String
  notes : String
  files : List StoredFile
  status : FileStatus
  aiAnalysis : List Json

/-- Request body fields read by the upload handler. -/
structure UploadBody where
  reportType : Option String
  reportDate : Option String
  doctorName : Option String
  hospitalName : Option String
  notes : Option String

/-- The per-file loop of the upload handler, processing files in order with
`storage i` the outcome of the object-storage upload for the i-th file
(`none` stands for a thrown or null result: the catch block logs and
continues with the next file). Returns the stored-file entries and the
(url, mimetype) pairs queued for AI analysis. -/
def processFiles (storage : Nat → Option CloudUploadResult) :
    Nat → List IncomingFile → List StoredFile × List (String × String)
  | _, [] => ([], [])
  | i, f :: fs =>
    let pr := processFiles storage (i + 1) fs
    match storage i with
    | none => pr
    | some cr =>
      let sf : StoredFile :=
        { originalName := f.originalName, cloudinaryId := cr.publicId, url := cr.url,
          format := cr.format, size := f.size, mimeType := f.mimetype }
      if strStartsWith f.mimetype "image/" || f.mimetype == "application/pdf" then
        (sf :: pr.fst, (cr.url, f.mimetype) :: pr.snd)
      else (sf :: pr.fst, pr.snd)

inductive UploadResponse where
  | multerError (msg : String)
  | badRequest (msg : String)
  | success (record : FileRecord) (uploadedFiles : Nat)

/-- What the upload handler has produced by the time the HTTP response is
sent: the response itself, the saved record (if any) and the queued
analysis calls, which have not yet run. -/
structure UploadOutcome where
  response : UploadResponse
  record : Option FileRecord
  pending : List (String × String)

/-- `router.post('/upload')` up to and including `res.json(...)` (step 3 of
the orchestrator): validation, per-file storage, record creation and the
response. JS falsiness of a missing or empty `reportType`/`reportDate` is
modelled explicitly. -/
def postUpload (userId newId : String) (files : List IncomingFile) (body : UploadBody)
    (storage : Nat → Option CloudUploadResult) : UploadOutcome :=
  match multerArray files with
  | .error e => { response := .multerError e, record := none, pending := [] }
  | .ok accepted =>
    if accepted.isEmpty then
      { response := .badRequest "No files uploaded", record := none, pending := [] }
    else
      match body.reportType, body.reportDate with
      | some rt, some rd =>
        if rt == "" || rd == "" then
          { response := .badRequest "Report type and date are required",
            record := none, pending := [] }
        else
          let pr := processFiles storage 0 accepted
          let record : FileRecord :=
            { user := userId, id := newId, reportType := rt, reportDate := rd,
              doctorName := body.doctorName.getD "", hospitalName := body.hospitalName.getD "",
              notes := body.notes.getD "", files := pr.fst, status := .uploaded,
              aiAnalysis := [] }
          { response := .success record pr.fst.length, record := some record,
            pending := pr.snd }
      | _, _ =>
        { response := .badRequest "Report type and date are required",
          record := none, pending := [] }

/-- The two disclaimer paths of the `AiInsight` schema
(`disclaimers.aiDisclaimer`, `disclaimers.medicalDisclaimer`); assigning an
object to `disclaimers` sets each subpath from the corresponding property. -/
structure InsightDisclaimers where
  aiDisclaimer : Option Json
  medicalDisclaimer : Option Json

/-- An `AiInsight` record as the upload route constructs it; the payload
fields keep the JSON values read from the analysis result. -/
structure Insight where
  user : String
  file : String
  type : String
  title : String
  summary : Option Json
  keyFindings : Json
  abnormalValues : Json
  doctorQuestions : Json
  recommendations : Json
  riskFactors : Json
  followUpSuggestions : Json
  confidence : Json
  language : String
  model : String
  processingTime : Json
  disclaimers : InsightDisclaimers

def emptyRecommendations : Json := .obj [("lifestyle", .arr []), ("medical", .arr [])]

def castDisclaimers (j : Json) : InsightDisclaimers :=
  { aiDisclaimer := j.getField "aiDisclaimer",
    medicalDisclaimer := j.getField "medicalDisclaimer" }

/-- `new Insight({...})` as built in the upload route's completion callback
(`routes/file.js`), with each `analysis.x || dflt` default spelled out. -/
def mkInsight (userId fileId reportType : String) (analysis : Json) : Insight :=
  { user := userId
    file := fileId
    type := "report_analysis"
    title := "Analysis: " ++ reportType
    summary := analysis.getField "summary"
    keyFindings := jsOr (analysis.getField "keyFindings") (.arr [])
    abnormalValues := jsOr (analysis.getField "abnormalValues") (.arr [])
    doctorQuestions := jsOr (analysis.getField "doctorQuestions") (.arr [])
    recommendations := jsOr (analysis.getField "recommendations") emptyRecommendations
    riskFactors := jsOr (analysis.getField "riskFactors") (.arr [])
    followUpSuggestions := jsOr (analysis.getField "followUpSuggestions") (.arr [])
    confidence := jsOr (analysis.getField "confidence") (.num 85)
    language := "both"
    model := "gemini-2.5-flash"
    processingTime := jsOr (analysis.getField "processingTime") (.num 0)
    disclaimers := castDisclaimers (jsOr (analysis.getField "disclaimers") defaultDisclaimers) }

/-- The `aiInsightSchema.pre('save')` hook: a missing or falsy disclaimer
block is replaced by the default block. -/
def insightPreSave (i : Insight) : Insight :=
  let ai := match i.disclaimers.aiDisclaimer with
    | some b => if b.truthy then some b else some aiDisclaimerBlock
    | none => some aiDisclaimerBlock
  let md := match i.disclaimers.medicalDisclaimer with
    | some b => if b.truthy then some b else some medicalDisclaimerBlock
    | none => some medicalDisclaimerBlock
  { i with disclaimers := { aiDisclaimer := ai, medicalDisclaimer := md } }

/-- The `if (analysis && analysis.summary)` guard of the insight loop. -/
def hasTruthySummary (j : Json) : Bool :=
  match j.getField "summary" with
  | some s => s.truthy
  | none => false

/-- The `Promise.all(fileAnalysisPromises).then(...)` completion step: each
outcome is either a parsed analysis or `null` (a caught per-file failure).
If at least one non-null result exists, the record gains the analyses and
status `analyzed`, and one insight is saved per result with a truthy
summary; otherwise nothing changes. -/
def completeAnalyses (record : FileRecord) (outcomes : List (Option Json)) :
    FileRecord × List Insight :=
  let valid := outcomes.filterMap id
  if valid.isEmpty then (record, [])
  else
    ({ record with aiAnalysis := valid, status := .analyzed },
     (valid.filter hasTruthySummary).map
       (fun a => insightPreSave (mkInsight record.user record.id record.reportType a)))

/-- The whole request flow: the HTTP response is produced by `postUpload`
before any analysis outcome exists; the background step (run only when
analyses were queued) afterwards updates the database state only. -/
def uploadFlow (userId newId : String) (files : List IncomingFile) (body : UploadBody)
    (storage : Nat → Option CloudUploadResult) (outcomes : List (Option Json)) :
    UploadResponse × Option (FileRecord × List Insight) :=
  let o := postUpload userId newId files body storage
  match o.record with
  | none => (o.response, none)
  | some r =>
    (o.response, if o.pending.isEmpty then some (r, []) else some (completeAnalyses r outcomes))

/-! Deletion (`router.delete('/:id')`) and download (`router.get('/:id/download')`). -/

/-- Database and object-storage state relevant to the file routes. -/
structure SysState where
  files : List FileRecord
  insights : List Insight
  cloudIds : List String

inductive DeleteResponse where
  | notFound
  | success
deriving DecidableEq, Repr

/-- Best-effort Cloudinary deletion loop: a failing deletion is caught and
the loop continues with the next stored file. -/
def deleteFromCloud (fails : String → Bool) (cloud : List String) (ids : List String) :
    List String :=
  ids.foldl (fun acc cid => if fails cid then acc else acc.erase cid) cloud

/-- `File.findOne({_id, user})`. -/
def findUserFile (st : SysState) (userId fid : String) : Option FileRecord :=
  st.files.find? (fun f => f.id == fid && f.user == userId)

/-- `router.delete('/:id')`: owner lookup, best-effort cloud deletion,
`File.findByIdAndDelete`, then `Insight.deleteMany({file: id})`. -/
def deleteFileRoute (st : SysState) (userId fid : String) (cloudFails : String → Bool) :
    DeleteResponse × SysState :=
  match findUserFile st userId fid with
  | none => (.notFound, st)
  | some f =>
    let cloud2 := deleteFromCloud cloudFails st.cloudIds (f.files.map (·.cloudinaryId))
    let files2 := st.files.filter (fun g => g.id != fid)
    let insights2 := st.insights.filter (fun i => i.file != fid)
    (.success, { files := files2, insights := insights2, cloudIds := cloud2 })

/-- JS `parseInt(s)`: skip leading whitespace, optional sign, then a
non-empty digit prefix, else NaN (modelled as `none`). -/
def parseIntJS (s : String) : Option Int :=
  let cs := s.toList.dropWhile isWs
  match cs with
  | '-' :: rest =>
    let ds := rest.takeWhile Char.isDigit
    if ds.isEmpty then none else some (-(digitsToNat ds : Int))
  | '+' :: rest =>
    let ds := rest.takeWhile Char.isDigit
    if ds.isEmpty then none else some ((digitsToNat ds : Int))
  | _ =>
    let ds := cs.takeWhile Char.isDigit
    if ds.isEmpty then none else some ((digitsToNat ds : Int))

/-- `parseInt(req.query.index) || 0`: a missing parameter or NaN gives 0,
and so does a parsed 0 (it is falsy). -/
def effectiveIndex (q : Option String) : Int :=
  match q with
  | none => 0
  | some s =>
    match parseIntJS s with
    | none => 0
    | some v => if v == 0 then 0 else v

inductive DownloadResponse where
  | notFound (msg : String)
  | redirect (url : String)
  | serverError (msg : String)
deriving DecidableEq, Repr

/-- JS array indexing `file.files[i]`: any index outside `[0, length)` —
including every negative one — yields `undefined`. -/
def jsArrayGet (l : List StoredFile) (i : Int) : Option StoredFile :=
  if i < 0 then none else l.get? i.toNat

/-- `router.get('/:id/download')` after the owner lookup: the bounds check
only rejects `index >= length`, so a negative index reaches
`file.files[index]`, `fileData.url` throws on `undefined`, and the catch
block answers 500. -/
def downloadRoute (file : Option FileRecord) (q : Option String) : DownloadResponse :=
  match file with
  | none => .notFound "File not found"
  | some f =>
    let idx := effectiveIndex q
    if idx ≥ (f.files.length : Int) then .notFound "File index out of range"
    else
      match jsArrayGet f.files idx with
      | some fd => .redirect fd.url
      | none => .serverError "Failed to download file"

/-!
The Vitals model (`models/Vitals.js`): schema validation, the
`formattedValue` virtual, the BMI pre-save hook, and the vitals POST route
(`routes/vitals.js`). Numeric values are rationals; timestamps are integer
milliseconds.
-/

structure VitalsValue where
  numeric : Option ℚ
  text : Option String
  systolic : Option Int
  diastolic : Option Int
deriving DecidableEq, Repr

/-- One document of the vitals collection, holding exactly the paths of
`vitalsSchema` that the analysed behaviour reads (schema defaults:
`source` `manual`, `isActive` `true`). -/
structure VitalsDoc where
  user : String
  type : Option String
  value : VitalsValue
  unit : Option String
  recordedAt : Int
  notes : String
  source : String
  isActive : Bool
deriving DecidableEq, Repr

def vitalTypeEnum : List String :=
  ["blood_pressure", "heart_rate", "temperature", "weight", "height", "blood_sugar",
   "oxygen_saturation", "respiratory_rate", "bmi", "waist_circumference",
   "body_fat_percentage", "sleep_hours", "steps", "calories_burned", "water_intake",
   "mood", "energy_level", "pain_level", "stress_level", "other"]

def vitalUnitEnum : List String :=
  ["mmHg", "bpm", "°C", "°F", "kg", "lbs", "cm", "ft", "in", "mg/dL", "mmol/L", "%",
   "hours", "steps", "calories", "liters", "ml", "cups", "scale_1_10", "scale_1_5", "text"]

/-- The types whose value is the free-text subjective scale. -/
def textValueTypes : List String := ["mood", "energy_level", "pain_level", "stress_level"]

/-- The schema's validators: `type` and `unit` are required enums,
`value.numeric` is required except for the subjective types, `value.text`
is required for them, both blood-pressure components are required for
`blood_pressure`, and notes are capped at 500 characters. -/
def validateVitals (d : VitalsDoc) : Bool :=
  match d.type, d.unit with
  | some t, some u =>
    vitalTypeEnum.contains t && vitalUnitEnum.contains u &&
    (if textValueTypes.contains t then d.value.text.isSome else d.value.numeric.isSome) &&
    (if t == "blood_pressure" then d.value.systolic.isSome && d.value.diastolic.isSome
     else true) &&
    decide (d.notes.length ≤ 500)
  | _, _ => false

def showOptInt : Option Int → String
  | some n => toString n
  | none => "undefined"

def showOptRat : Option ℚ → String
  | some q => toString q
  | none => "undefined"

def showOptStr : Option String → String
  | some s => s
  | none => "undefined"

/-- The `formattedValue` virtual. -/
def formattedValue (d : VitalsDoc) : String :=
  if d.type == some "blood_pressure" then
    showOptInt d.value.systolic ++ "/" ++ showOptInt d.value.diastolic ++ " " ++
      showOptStr d.unit
  else if d.value.numeric.isSome then
    showOptRat d.value.numeric ++ " " ++ showOptStr d.unit
  else
    match d.value.text with
    | some t => t
    | none => "N/A"

/-! The vitals POST route (`routes/vitals.js`). -/

structure BloodPressureInput where
  systolic : Int
  diastolic : Int
deriving DecidableEq, Repr

/-- Request body fields the vitals POST route destructures. -/
structure VitalsBody where
  bloodPressure : Option BloodPressureInput
  heartRate : Option Int
  temperature : Option ℚ
  weight : Option ℚ
  height : Option ℚ
  bloodSugar : Option Int
  oxygenSaturation : Option Int
  recordedAt : Option Int
  notes : Option String

inductive VitalsPostResponse where
  | badRequest (msg : String)
  | created (doc : VitalsDoc)
  | serverError (msg : String)
deriving DecidableEq, Repr

/-- `router.post('/')` of the vitals routes. The route passes
`bloodPressure`, `heartRate`, `temperature`, `weight`, `height`,
`bloodSugar` and `oxygenSaturation` to the `Vitals` constructor, but none
of these are paths of `vitalsSchema` (which stores `type`/`value`/`unit`):
under Mongoose strict mode they are discarded, so the document holds only
`user`, `recordedAt`, `notes` and the schema defaults, and `save()` then
fails validation (`type`, `unit` and `value.numeric` are required), which
the catch block reports as a 500. -/
def vitalsPostRoute (userId : String) (body : VitalsBody) : VitalsPostResponse :=
  match body.recordedAt with
  | none => .badRequest "Recorded date and time are required"
  | some t =>
    let doc : VitalsDoc :=
      { user := userId, type := none,
        value := { numeric := none, text := none, systolic := none, diastolic := none },
        unit := none, recordedAt := t, notes := (match body.notes with
          | some n => n
          | none => ""),
        source := "manual", isActive := true }
    if validateVitals doc then .created doc else .serverError "Failed to record vitals"

/-! The BMI pre-save hook (`vitalsSchema.pre('save')`). -/

def dayMs : Int := 24 * 60 * 60 * 1000

/-- The `findOne` query for the most recent active height reading. -/
def isActiveHeight (u : String) (r : VitalsDoc) : Bool :=
  r.user == u && r.type == some "height" && r.isActive

def latestHeight (rows : List VitalsDoc) (u : String) : Option VitalsDoc :=
  (rows.filter (isActiveHeight u)).foldl
    (fun acc r =>
      match acc with
      | none => some r
      | some b => if r.recordedAt > b.recordedAt then some r else some b)
    none

/-- The user/bmi part of the upsert query. -/
def isBmiOf (u : String) (r : VitalsDoc) : Bool :=
  r.user == u && r.type == some "bmi"

/-- The `recordedAt` window of the upsert query: within 24 hours of `t`. -/
def inBmiWindow (t : Int) (r : VitalsDoc) : Bool :=
  decide (t - dayMs ≤ r.recordedAt) && decide (r.recordedAt ≤ t + dayMs)

/-- The full `findOneAndUpdate` query. -/
def isBmiMatch (u : String) (t : Int) (r : VitalsDoc) : Bool :=
  isBmiOf u r && inBmiWindow t r

/-- JS `Math.round`: half away from zero upward, i.e. `⌊x + 1/2⌋`. -/
def round1 (q : ℚ) : ℚ := ((round (q * 10) : ℤ) : ℚ) / 10

/-- The update document of the upsert, applied to a matched row. -/
def bmiUpdateDoc (u : String) (bmiVal : ℚ) (t : Int) (old : VitalsDoc) : VitalsDoc :=
  { old with
    user := u, type := some "bmi",
    value := { numeric := some bmiVal, text := none, systolic := none, diastolic := none },
    unit := some "kg/m²", recordedAt := t, source := "calculated",
    notes := "Auto-calculated from weight and height" }

/-- The document inserted when the upsert finds no match (schema defaults
apply to the unset paths). -/
def bmiInsertDoc (u : String) (bmiVal : ℚ) (t : Int) : VitalsDoc :=
  { user := u, type := some "bmi",
    value := { numeric := some bmiVal, text := none, systolic := none, diastolic := none },
    unit := some "kg/m²", recordedAt := t, source := "calculated",
    notes := "Auto-calculated from weight and height", isActive := true }

/-- `findOneAndUpdate(query, update, {upsert: true})`: update the first
matching document, or insert when none matches. -/
def upsertFirst (p : VitalsDoc → Bool) (upd : VitalsDoc → VitalsDoc) (ins : VitalsDoc) :
    List VitalsDoc → List VitalsDoc
  | [] => [ins]
  | x :: xs => if p x then upd x :: xs else x :: upsertFirst p upd ins xs

/-- The pre-save hook on a document `d` being saved against collection
`rows`: for a weight reading with a truthy numeric value and an existing
active height reading, compute BMI from the height in metres and upsert a
`bmi` row in the ±24h window around the weight's `recordedAt`. (Height
rows always carry a numeric value by validation; the hook is modelled only
for such rows, and for a nonzero height, where rational division agrees
with the JS float computation's intent.) -/
def vitalsPreSave (rows : List VitalsDoc) (d : VitalsDoc) : List VitalsDoc :=
  if d.type == some "weight" then
    match latestHeight rows d.user with
    | none => rows
    | some hgt =>
      match d.value.numeric with
      | none => rows
      | some w =>
        if w == 0 then rows
        else
          match hgt.value.numeric with
          | none => rows
          | some hv =>
            let heightInMeters : ℚ := hv / 100
            let bmi : ℚ := w / (heightInMeters * heightInMeters)
            upsertFirst (isBmiMatch d.user d.recordedAt)
              (bmiUpdateDoc d.user (round1 bmi) d.recordedAt)
              (bmiInsertDoc d.user (round1 bmi) d.recordedAt) rows
  else rows

/-- `document.save()`: the pre-save hook runs, then the document itself is
persisted. -/
def saveVitals (rows : List VitalsDoc) (d : VitalsDoc) : List VitalsDoc :=
  vitalsPreSave rows d ++ [d]

/-!
`sensitiveOperationLimit(maxAttempts, windowMs)` of `middleware/auth.js`:
per-identity state is the list of admitted attempt timestamps, in arrival
order. Each request first drops attempts at or before `now - windowMs`,
then either rejects with 429 and a retry hint computed from the oldest
remaining attempt, or records the attempt and admits.
-/

/-- JS `Math.ceil(a / b)` for integers, `b > 0`. -/
def jsCeilDiv (a b : Int) : Int := -((-a).ediv b)

inductive LimitOutcome where
  | allowed
  | rejected (status : Nat) (retryAfter : Int)
deriving DecidableEq, Repr

/-- One request through the rate-limit middleware. -/
def limitStep (maxAttempts : Nat) (windowMs : Int) (now : Int) (s : List Int) :
    LimitOutcome × List Int :=
  let filtered := s.filter (fun time => decide (time > now - windowMs))
  if filtered.length ≥ maxAttempts then
    (.rejected 429 (match filtered.head? with
      | some t0 => jsCeilDiv (t0 + windowMs - now) 1000
      | none => 0),
     filtered)
  else
    (.allowed, filtered ++ [now])

/-- The admitted request times of a run over request times `ts`. -/
def runAdmitted (maxAttempts : Nat) (windowMs : Int) (s : List Int) :
    List Int → List Int
  | [] => []
  | now :: ts =>
    match limitStep maxAttempts windowMs now s with
    | (.allowed, s2) => now :: runAdmitted maxAttempts windowMs s2 ts
    | (.rejected _ _, s2) => runAdmitted maxAttempts windowMs s2 ts

/-! Concrete inputs used by counterexamples and witnesses. -/

def pdfFile : IncomingFile :=
  { originalName := "report.pdf", mimetype := "application/pdf", size := 1024 }

def txtFile : IncomingFile :=
  { originalName := "notes.txt", mimetype := "text/plain", size := 10 }

def goodBody : UploadBody :=
  { reportType := some "Blood Test", reportDate := some "2024-01-15",
    doctorName := none, hospitalName := none, notes := none }

def okStorage : Nat → Option CloudUploadResult := fun i =>
  some { publicId := "pid" ++ toString i, url := "https://cdn.example/" ++ toString i,
         format := "pdf" }

/-- A parsed model response that is a JSON object but carries no summary. -/
def noSummaryAnalysis : Json := .obj [("confidence", .num 50)]

def sampleRecord : FileRecord :=
  { user := "u1", id := "f1", reportType := "Blood Test", reportDate := "2024-01-15",
    doctorName := "", hospitalName := "", notes := "", files := [],
    status := .uploaded, aiAnalysis := [] }

/-- The vitals POST body of the blood-pressure scenario. -/
def bpBody : VitalsBody :=
  { bloodPressure := some { systolic := 120, diastolic := 80 },
    heartRate := none, temperature := none, weight := none, height := none,
    bloodSugar := none, oxygenSaturation := none,
    recordedAt := some 1705312800000, notes := none }

/-- The vitals document the scenario intends: a schema-valid blood-pressure
reading of 120/80 mmHg. (The schema requires `value.numeric` for every
non-subjective type, blood pressure included, so a valid document must
carry some numeric value alongside the pair; `formattedValue` ignores it
for blood pressure.) -/
def bpIntendedDoc : VitalsDoc :=
  { user := "u1", type := some "blood_pressure",
    value := { numeric := some 120, text := none, systolic := some 120, diastolic := some 80 },
    unit := some "mmHg", recordedAt := 1705312800000, notes := "",
    source := "manual", isActive := true }

end HealthMate

namespace HealthMate

/-!
## Theorems
-/

/-- C4: recording a blood-pressure reading of 120/80 through the vitals
POST route does not succeed: the route builds a document with none of the
schema's required `type`/`value`/`unit` paths (its body fields are not
schema paths and are discarded), so the save fails validation and the
route answers 500 — even though a schema-valid 120/80 document passes
validation and formats as "120/80 mmHg", which is what the claim (and the
model's own virtual) intends. -/
theorem vitals_post_blood_pressure_fails :
    vitalsPostRoute "u1" bpBody = .serverError "Failed to record vitals"
    ∧ validateVitals bpIntendedDoc = true
    ∧ formattedValue bpIntendedDoc = "120/80 mmHg" := by
  refine ⟨rfl, by decide, by decide⟩

/-- C2 counterexample: one analysis outcome that parsed to a JSON object
without a summary makes the completion step set status `analyzed` while
creating no Insight at all, so `analyzed` does not imply an existing
linked Insight. -/
theorem analyzed_with_zero_insights :
    (completeAnalyses sampleRecord [some noSummaryAnalysis]).fst.status = .analyzed
    ∧ (completeAnalyses sampleRecord [some noSummaryAnalysis]).snd = [] :=
  ⟨rfl, rfl⟩

/-- C2 amended: the completion step sets status `analyzed` whenever at
least one non-null analysis outcome exists; it creates exactly one Insight
per non-null outcome whose summary is truthy, and none otherwise — so
`analyzed` guarantees a linked Insight only when some outcome carries a
summary. -/
theorem analyzed_status_vs_insights (record : FileRecord) (outcomes : List (Option Json)) :
    (outcomes.filterMap id ≠ [] →
      (completeAnalyses record outcomes).fst.status = .analyzed)
    ∧ (outcomes.filterMap id = [] → completeAnalyses record outcomes = (record, []))
    ∧ (completeAnalyses record outcomes).snd.length
        = ((outcomes.filterMap id).filter hasTruthySummary).length
    ∧ ((∃ a ∈ outcomes.filterMap id, hasTruthySummary a) →
        (completeAnalyses record outcomes).snd ≠ []) := by
  cases hE : (outcomes.filterMap id).isEmpty with
  | true =>
    have hnil : outcomes.filterMap id = [] := List.isEmpty_iff.mp hE
    refine ⟨fun hne => absurd hnil hne, fun _ => ?_, ?_, ?_⟩
    · simp [completeAnalyses, hE]
    · simp [completeAnalyses, hE, hnil]
    · simp [hnil]
  | false =>
    have hne : outcomes.filterMap id ≠ [] := by
      intro hh
      rw [hh] at hE
      simp at hE
    refine ⟨fun _ => ?_, fun hh => absurd hh hne, ?_, ?_⟩
    · simp [completeAnalyses, hE]
    · simp [completeAnalyses, hE]
    · rintro ⟨a, ha, hta⟩
      have hmem : a ∈ (outcomes.filterMap id).filter hasTruthySummary :=
        List.mem_filter.mpr ⟨ha, hta⟩
      simp only [completeAnalyses, hE, Bool.false_eq_true, if_false, ne_eq,
        List.map_eq_nil_iff]
      exact List.ne_nil_of_mem hmem

/-- C2 amended witness at a concrete input: a single successful analysis
with a truthy summary yields status `analyzed` and a nonempty insight
list. -/
theorem analyzed_status_vs_insights_witness :
    (completeAnalyses sampleRecord [some (Json.obj [("summary", Json.str "ok")])]).fst.status
        = .analyzed
    ∧ (completeAnalyses sampleRecord [some (Json.obj [("summary", Json.str "ok")])]).snd
        ≠ [] := by
  have h := analyzed_status_vs_insights sampleRecord
    [some (Json.obj [("summary", Json.str "ok")])]
  exact ⟨h.1 (by simp), h.2.2.2 ⟨Json.obj [("summary", Json.str "ok")], by simp, rfl⟩⟩

/-- C10: in the download route a missing or non-numeric `index` query
parameter is treated as index 0; an index at or beyond the number of
stored files is answered 404 "File index out of range"; but a negative
index passes that check (which only tests `index >= length`) and the
`undefined` array access makes the handler answer 500 instead of 404. -/
theorem download_index_handling (f : FileRecord) (s : String) (q : Option String) :
    effectiveIndex none = 0
    ∧ (parseIntJS s = none → effectiveIndex (some s) = 0)
    ∧ ((f.files.length : Int) ≤ effectiveIndex q →
        downloadRoute (some f) q = .notFound "File index out of range")
    ∧ (effectiveIndex q < 0 →
        downloadRoute (some f) q = .serverError "Failed to download file") := by
  refine ⟨rfl, ?_, ?_, ?_⟩
  · intro h
    simp [effectiveIndex, h]
  · intro h
    have hcond : effectiveIndex q ≥ (f.files.length : Int) := h
    simp [downloadRoute, hcond]
  · intro h
    have hnot : ¬ (effectiveIndex q ≥ (f.files.length : Int)) := by omega
    have hget : jsArrayGet f.files (effectiveIndex q) = none := by
      unfold jsArrayGet
      rw [if_pos h]
    simp [downloadRoute, hnot, hget]

/-- C10 witness: with one stored file, `index=-1` yields the 500 response,
`index=5` the 404 range response, and a junk index parses as 0. -/
theorem download_index_handling_witness :
    effectiveIndex (some "abc") = 0
    ∧ downloadRoute (some { sampleRecord with
        files := [{ originalName := "a.pdf", cloudinaryId := "c1",
                    url := "https://cdn.example/a", format := "pdf", size := 1,
                    mimeType := "application/pdf" }] }) (some "-1")
      = .serverError "Failed to download file"
    ∧ downloadRoute (some { sampleRecord with
        files := [{ originalName := "a.pdf", cloudinaryId := "c1",
                    url := "https://cdn.example/a", format := "pdf", size := 1,
                    mimeType := "application/pdf" }] }) (some "5")
      = .notFound "File index out of range" := by
  refine ⟨(download_index_handling sampleRecord "abc" none).2.1 rfl, ?_, ?_⟩
  · exact (download_index_handling _ "" (some "-1")).2.2.2 (by decide)
  · exact (download_index_handling _ "" (some "5")).2.2.1 (by decide)

/-- Any filter by a key-value disequality followed by a filter for the
same key-value equality is empty. -/
theorem filter_ne_filter_eq_nil {α : Type} (l : List α) (key : α → String) (fid : String) :
    (l.filter (fun g => key g != fid)).filter (fun g => key g == fid) = [] := by
  rw [List.filter_filter]
  exact List.filter_eq_nil_iff.mpr (fun a _ => by cases h : key a == fid <;> simp [bne, h])

/-- C6: a successful delete of an owned UploadedFile removes the record
and every Insight referencing it, for every behaviour of the per-file
object-storage deletions (`cloudFails` tells which identifiers fail to
delete remotely; such failures are swallowed and do not stop the database
deletions). -/
theorem delete_file_cascades (st : SysState) (userId fid : String) (f : FileRecord)
    (cloudFails : String → Bool) (h : findUserFile st userId fid = some f) :
    (deleteFileRoute st userId fid cloudFails).fst = .success
    ∧ ((deleteFileRoute st userId fid cloudFails).snd.files.filter
        (fun g => g.id == fid)) = []
    ∧ ((deleteFileRoute st userId fid cloudFails).snd.insights.filter
        (fun i => i.file == fid)) = [] := by
  unfold deleteFileRoute
  rw [h]
  exact ⟨rfl, filter_ne_filter_eq_nil st.files (fun g => g.id) fid,
    filter_ne_filter_eq_nil st.insights (fun i => i.file) fid⟩

/-- C6 witness: deleting the one stored file, with every object-storage
deletion failing, still removes the record and its linked insight. -/
theorem delete_file_cascades_witness :
    (deleteFileRoute
      { files := [sampleRecord],
        insights := [mkInsight "u1" "f1" "Blood Test" noSummaryAnalysis],
        cloudIds := ["c1"] } "u1" "f1" (fun _ => true)).fst = .success
    ∧ ((deleteFileRoute
      { files := [sampleRecord],
        insights := [mkInsight "u1" "f1" "Blood Test" noSummaryAnalysis],
        cloudIds := ["c1"] } "u1" "f1" (fun _ => true)).snd.insights.filter
        (fun i => i.file == "f1")) = [] :=
  have h := delete_file_cascades
    { files := [sampleRecord],
      insights := [mkInsight "u1" "f1" "Blood Test" noSummaryAnalysis],
      cloudIds := ["c1"] } "u1" "f1" sampleRecord (fun _ => true) rfl
  ⟨h.1, h.2.2⟩

/-- C7: the HTTP response of the upload flow is the one `postUpload`
computes before any analysis runs — it is the same for any two lists of
later analysis outcomes — and whenever it is a success it carries the
created record (status `uploaded`) together with the count of its stored
files. -/
theorem upload_response_independent_of_analyses (userId newId : String)
    (files : List IncomingFile) (body : UploadBody)
    (storage : Nat → Option CloudUploadResult) (o1 o2 : List (Option Json)) :
    (uploadFlow userId newId files body storage o1).fst
      = (uploadFlow userId newId files body storage o2).fst
    ∧ (uploadFlow userId newId files body storage o1).fst
      = (postUpload userId newId files body storage).response
    ∧ (∀ rec n, (postUpload userId newId files body storage).response = .success rec n →
        n = rec.files.length ∧ rec.status = .uploaded) := by
  have hfst : ∀ o : List (Option Json),
      (uploadFlow userId newId files body storage o).fst
        = (postUpload userId newId files body storage).response := by
    intro o
    unfold uploadFlow
    cases h : (postUpload userId newId files body storage).record <;> simp [h]
  refine ⟨(hfst o1).trans (hfst o2).symm, hfst o1, ?_⟩
  intro rec n h
  unfold postUpload at h
  cases hm : multerArray files with
  | error e =>
    rw [hm] at h
    simp at h
  | ok accepted =>
    rw [hm] at h
    dsimp only at h
    cases hE : accepted.isEmpty with
    | true =>
      rw [hE] at h
      simp at h
    | false =>
      rw [hE] at h
      cases hrt : body.reportType with
      | none => rw [hrt] at h; cases body.reportDate <;> simp at h
      | some rt =>
        cases hrd : body.reportDate with
        | none => rw [hrt, hrd] at h; simp at h
        | some rd =>
          rw [hrt, hrd] at h
          cases hem : (rt == "" || rd == "") with
          | true => simp [hem] at h
          | false =>
            simp [hem, UploadResponse.success.injEq] at h
            obtain ⟨hrec, hn⟩ := h
            subst hn
            rw [← hrec]
            exact ⟨rfl, rfl⟩

/-- The record a single-PDF upload with working storage creates. -/
def c7Record : FileRecord :=
  { user := "u1", id := "f1", reportType := "Blood Test", reportDate := "2024-01-15",
    doctorName := "", hospitalName := "", notes := "",
    files := [{ originalName := "report.pdf", cloudinaryId := "pid0",
                url := "https://cdn.example/0", format := "pdf", size := 1024,
                mimeType := "application/pdf" }],
    status := .uploaded, aiAnalysis := [] }

/-- C7 witness: a single-PDF upload gets the same response whether the
analysis later succeeds or fails, and that success response carries the
record's stored-file count. -/
theorem upload_response_independent_witness :
    (uploadFlow "u1" "f1" [pdfFile] goodBody okStorage [some noSummaryAnalysis]).fst
      = (uploadFlow "u1" "f1" [pdfFile] goodBody okStorage [none]).fst
    ∧ (1 : Nat) = c7Record.files.length :=
  have h := upload_response_independent_of_analyses "u1" "f1" [pdfFile] goodBody okStorage
    [some noSummaryAnalysis] [none]
  ⟨h.1, (h.2.2 c7Record 1 rfl).1⟩

/-- Both disclaimer blocks of a saved insight are present and truthy. -/
theorem insightPreSave_ai_truthy (i : Insight) :
    ∃ b, (insightPreSave i).disclaimers.aiDisclaimer = some b ∧ b.truthy = true := by
  unfold insightPreSave
  cases h : i.disclaimers.aiDisclaimer with
  | none => exact ⟨aiDisclaimerBlock, rfl, rfl⟩
  | some b =>
    cases hb : b.truthy with
    | true => exact ⟨b, by simp [h, hb], hb⟩
    | false => exact ⟨aiDisclaimerBlock, by simp [h, hb], rfl⟩

theorem insightPreSave_md_truthy (i : Insight) :
    ∃ b, (insightPreSave i).disclaimers.medicalDisclaimer = some b ∧ b.truthy = true := by
  unfold insightPreSave
  cases h : i.disclaimers.medicalDisclaimer with
  | none => exact ⟨medicalDisclaimerBlock, rfl, rfl⟩
  | some b =>
    cases hb : b.truthy with
    | true => exact ⟨b, by simp [h, hb], hb⟩
    | false => exact ⟨medicalDisclaimerBlock, by simp [h, hb], rfl⟩

/-- C9: an Insight created from an analysis result and saved carries two
present (truthy) disclaimer blocks — the supplied ones when the analysis
supplies truthy blocks, the fixed defaults otherwise — and each missing
optional field defaults as specified: empty collections for the list
fields, empty lifestyle/medical recommendations, confidence 85, and the
fixed model identifier. -/
theorem insight_disclaimers_and_defaults (userId fileId reportType : String)
    (analysis : Json) (ins : Insight)
    (hins : ins = insightPreSave (mkInsight userId fileId reportType analysis)) :
    (∃ b, ins.disclaimers.aiDisclaimer = some b ∧ b.truthy = true)
    ∧ (∃ b, ins.disclaimers.medicalDisclaimer = some b ∧ b.truthy = true)
    ∧ (analysis.getField "disclaimers" = none →
        ins.disclaimers.aiDisclaimer = some aiDisclaimerBlock
        ∧ ins.disclaimers.medicalDisclaimer = some medicalDisclaimerBlock)
    ∧ (∀ db b, analysis.getField "disclaimers" = some db → db.truthy = true →
        db.getField "aiDisclaimer" = some b → b.truthy = true →
        ins.disclaimers.aiDisclaimer = some b)
    ∧ (analysis.getField "keyFindings" = none → ins.keyFindings = .arr [])
    ∧ (analysis.getField "abnormalValues" = none → ins.abnormalValues = .arr [])
    ∧ (analysis.getField "doctorQuestions" = none → ins.doctorQuestions = .arr [])
    ∧ (analysis.getField "recommendations" = none → ins.recommendations = emptyRecommendations)
    ∧ (analysis.getField "riskFactors" = none → ins.riskFactors = .arr [])
    ∧ (analysis.getField "followUpSuggestions" = none → ins.followUpSuggestions = .arr [])
    ∧ (analysis.getField "confidence" = none → ins.confidence = .num 85)
    ∧ ins.model = "gemini-2.5-flash" := by
  subst hins
  refine ⟨insightPreSave_ai_truthy _, insightPreSave_md_truthy _, ?_, ?_, ?_, ?_, ?_, ?_,
    ?_, ?_, ?_, ?_⟩
  · intro h
    unfold mkInsight
    rw [h]
    exact ⟨rfl, rfl⟩
  · intro db b h1 h2 h3 h4
    unfold mkInsight
    rw [h1]
    simp only [jsOr, h2, if_true, castDisclaimers, h3, insightPreSave, h4]
  · intro h
    unfold mkInsight
    rw [h]
    rfl
  · intro h
    unfold mkInsight
    rw [h]
    rfl
  · intro h
    unfold mkInsight
    rw [h]
    rfl
  · intro h
    unfold mkInsight
    rw [h]
    rfl
  · intro h
    unfold mkInsight
    rw [h]
    rfl
  · intro h
    unfold mkInsight
    rw [h]
    rfl
  · intro h
    unfold mkInsight
    rw [h]
    rfl
  · rfl

/-- When every incoming file passes the filter and the size limit, the
multer scan accepts them all. -/
theorem multerScan_ok_of_all (files : List IncomingFile)
    (h : ∀ f ∈ files, fileFilterAccepts f = true ∧ f.size ≤ fileSizeLimit) :
    multerScan files = .ok files := by
  induction files with
  | nil => rfl
  | cons f fs ih =>
    have hf := h f (List.mem_cons_self f fs)
    have h2 : ¬ (f.size > fileSizeLimit) := Nat.not_lt.mpr hf.2
    simp [multerScan, hf.1, h2, ih (fun g hg => h g (List.mem_cons_of_mem f hg))]

/-- A single file violating the filter or the size limit makes the multer
scan abort the whole request with an error. -/
theorem multerScan_err_of_bad (files : List IncomingFile)
    (h : ∃ f ∈ files, fileFilterAccepts f = false ∨ fileSizeLimit < f.size) :
    ∃ e, multerScan files = .error e := by
  induction files with
  | nil =>
    obtain ⟨f, hf, _⟩ := h
    exact absurd hf (List.not_mem_nil f)
  | cons g fs ih =>
    by_cases hacc : fileFilterAccepts g
    · by_cases hsz : g.size > fileSizeLimit
      · exact ⟨"LIMIT_FILE_SIZE", by simp [multerScan, hacc, hsz]⟩
      · obtain ⟨f, hf, hbad⟩ := h
        rcases List.mem_cons.mp hf with rfl | hmem
        · cases hbad with
          | inl h1 => rw [hacc] at h1; exact absurd h1 (by simp)
          | inr h2 => exact absurd h2 hsz
        · obtain ⟨e, he⟩ := ih ⟨f, hmem, hbad⟩
          exact ⟨e, by simp [multerScan, hacc, hsz, he]⟩
    · exact ⟨"Only images and PDF files are allowed",
        by simp [multerScan, Bool.eq_false_iff.mpr hacc]⟩

/-- The stored-file list collects exactly one entry per successful storage
call, in order. -/
theorem processFiles_length (storage : Nat → Option CloudUploadResult) :
    ∀ (files : List IncomingFile) (i : Nat),
      (processFiles storage i files).fst.length
        = ((List.range files.length).filter (fun j => (storage (i + j)).isSome)).length := by
  intro files
  induction files with
  | nil => intro i; rfl
  | cons f fs ih =>
    intro i
    have hshift : ((List.range fs.length).filter
          (fun j => (storage (i + Nat.succ j)).isSome)).length
        = ((List.range fs.length).filter (fun j => (storage ((i + 1) + j)).isSome)).length := by
      have : ∀ j ∈ List.range fs.length,
          ((storage (i + Nat.succ j)).isSome : Bool)
            = ((storage ((i + 1) + j)).isSome : Bool) := by
        intro j _
        rw [show i + Nat.succ j = (i + 1) + j by omega]
      rw [List.filter_congr this]
    cases hs : storage i with
    | none =>
      have hl : (processFiles storage i (f :: fs)).fst.length
          = (processFiles storage (i + 1) fs).fst.length := by
        simp [processFiles, hs]
      rw [hl, ih (i + 1)]
      simp only [List.length_cons]
      rw [List.range_succ_eq_map]
      have h0 : ((storage (i + 0)).isSome : Bool) = false := by
        rw [Nat.add_zero, hs]
        rfl
      rw [List.filter_cons]
      rw [h0]
      simp only [Bool.false_eq_true, if_false, List.filter_map, List.length_map]
      rw [show (fun j => (storage (i + j)).isSome) ∘ Nat.succ
            = fun j => (storage (i + Nat.succ j)).isSome from rfl] at *
      rw [← hshift]
    | some cr =>
      have hl : (processFiles storage i (f :: fs)).fst.length
          = (processFiles storage (i + 1) fs).fst.length + 1 := by
        by_cases hc : (strStartsWith f.mimetype "image/" || f.mimetype == "application/pdf")
          <;> simp [processFiles, hs, hc]
      rw [hl, ih (i + 1)]
      simp only [List.length_cons]
      rw [List.range_succ_eq_map]
      have h0 : ((storage (i + 0)).isSome : Bool) = true := by
        rw [Nat.add_zero, hs]
        rfl
      rw [List.filter_cons, h0]
      simp only [if_true, List.length_cons, List.filter_map, List.length_map]
      rw [show (fun j => (storage (i + j)).isSome) ∘ Nat.succ
            = fun j => (storage (i + Nat.succ j)).isSome from rfl]
      rw [← hshift]

/-- C1 counterexample: uploading one valid PDF together with one
disallowed `.txt` file does not succeed with one stored file — the multer
filter error aborts the whole request before the handler runs, so no
success response and no UploadedFile record exist. -/
theorem upload_with_txt_aborts :
    (postUpload "u1" "f1" [pdfFile, txtFile] goodBody okStorage).response
      = .multerError "Only images and PDF files are allowed"
    ∧ (postUpload "u1" "f1" [pdfFile, txtFile] goodBody okStorage).record = none :=
  ⟨rfl, rfl⟩

/-- C1 amended: a file failing the MIME filter or the 10MB limit aborts
the entire upload (no per-file tolerance at the middleware stage); when all
attached files pass the policy, the handler responds success with the
record containing exactly the files whose storage call succeeded — one per
successful call, storage failures skipped without affecting siblings. -/
theorem upload_policy_and_storage_skips (userId newId : String)
    (files : List IncomingFile) (body : UploadBody)
    (storage : Nat → Option CloudUploadResult) (rt rd : String) :
    ((∀ f ∈ files, fileFilterAccepts f = true ∧ f.size ≤ fileSizeLimit) →
      files ≠ [] → files.length ≤ maxFileCount →
      body.reportType = some rt → body.reportDate = some rd →
      (rt == "") = false → (rd == "") = false →
      (postUpload userId newId files body storage).response
        = .success
            { user := userId, id := newId, reportType := rt, reportDate := rd,
              doctorName := body.doctorName.getD "", hospitalName := body.hospitalName.getD "",
              notes := body.notes.getD "", files := (processFiles storage 0 files).fst,
              status := .uploaded, aiAnalysis := [] }
            (processFiles storage 0 files).fst.length
      ∧ (processFiles storage 0 files).fst.length
          = ((List.range files.length).filter (fun j => (storage j).isSome)).length)
    ∧ ((∃ f ∈ files, fileFilterAccepts f = false ∨ fileSizeLimit < f.size) →
        ∀ rec n, (postUpload userId newId files body storage).response ≠ .success rec n) := by
  constructor
  · intro hall hne hcnt hrt hrd hrt0 hrd0
    have hm : multerArray files = .ok files := by
      unfold multerArray
      rw [if_neg (by omega : ¬ files.length > maxFileCount)]
      exact multerScan_ok_of_all files hall
    have hemp : files.isEmpty = false := by
      cases hf : files.isEmpty
      · rfl
      · exact absurd (List.isEmpty_iff.mp hf) hne
    constructor
    · unfold postUpload
      rw [hm]
      dsimp only
      rw [hemp, hrt, hrd]
      dsimp only
      rw [show (rt == "" || rd == "") = false from by rw [hrt0, hrd0]; rfl]
      rfl
    · have := processFiles_length storage files 0
      simpa using this
  · intro hbad rec n
    obtain ⟨e, he⟩ := multerScan_err_of_bad files hbad
    unfold postUpload multerArray
    by_cases hlen : files.length > maxFileCount
    · rw [if_pos hlen]
      simp
    · rw [if_neg hlen, he]
      simp

/-- C1 amended witness: one valid PDF with working storage yields a
success response with exactly one stored file. -/
theorem upload_policy_witness :
    (postUpload "u1" "f1" [pdfFile] goodBody okStorage).response
      = .success
          { user := "u1", id := "f1", reportType := "Blood Test",
            reportDate := "2024-01-15", doctorName := "", hospitalName := "",
            notes := "", files := (processFiles okStorage 0 [pdfFile]).fst,
            status := .uploaded, aiAnalysis := [] }
          (processFiles okStorage 0 [pdfFile]).fst.length
    ∧ (processFiles okStorage 0 [pdfFile]).fst.length = 1 :=
  have h := (upload_policy_and_storage_skips "u1" "f1" [pdfFile] goodBody okStorage
    "Blood Test" "2024-01-15").1
    (by intro f hf; rw [List.mem_singleton] at hf; subst hf; exact ⟨rfl, by decide⟩)
    (by decide) (by decide) rfl rfl rfl rfl
  ⟨h.1, by rw [h.2]; rfl⟩

/-- The greedy extraction returns the whole text when the text itself is a
brace-delimited document. -/
theorem extractJsonSlice_whole (text : String)
    (h1 : text.toList.head? = some '\x7b') (h2 : text.toList.getLast? = some '\x7d') :
    extractJsonSlice text = some text := by
  obtain ⟨rest, hcs⟩ : ∃ rest, text.toList = '\x7b' :: rest := by
    cases hc : text.toList with
    | nil => rw [hc] at h1; simp at h1
    | cons a l =>
      rw [hc] at h1
      simp at h1
      exact ⟨l, by rw [h1]⟩
  obtain ⟨rtail, hrt⟩ : ∃ rtail, text.toList.reverse = '\x7d' :: rtail := by
    have hrev : text.toList.reverse.head? = some '\x7d' := by
      rw [List.head?_reverse]
      exact h2
    cases hc : text.toList.reverse with
    | nil => rw [hc] at hrev; simp at hrev
    | cons a l =>
      rw [hc] at hrev
      simp at hrev
      exact ⟨l, by rw [hrev]⟩
  have hne : rest ≠ [] := by
    intro hr
    rw [hr] at hcs
    rw [hcs] at h2
    simp at h2
  have hfirst : firstIdxOf '\x7b' text.toList = some 0 := by
    rw [hcs]
    simp [firstIdxOf]
  have hsecond : firstIdxOf '\x7d' text.toList.reverse = some 0 := by
    rw [hrt]
    simp [firstIdxOf]
  have hlen : 2 ≤ text.toList.length := by
    rw [hcs]
    have := List.length_pos.mpr hne
    simp
    omega
  unfold extractJsonSlice
  rw [hfirst, hsecond]
  dsimp only
  rw [if_pos (by omega)]
  have htake : (text.toList.drop 0).take (text.toList.length - 1 - 0 - 0 + 1)
      = text.toList := by
    rw [List.drop_zero, Nat.sub_zero, Nat.sub_zero, Nat.sub_add_cancel (by omega)]
    exact List.take_length _
  rw [htake]
  rfl

/-- A model response holding two JSON objects separated by junk. -/
def junkTwoObjects : String := "\x7b\"a\":1\x7d \x7b\"b\":2\x7d"

/-- C3 counterexample: on a response containing two JSON objects the
extraction is not "the first balanced JSON object substring": the greedy
slice spans from the first opening to the last closing brace, fails to
parse, and the adapter returns the fallback — not the parsed first object,
which is itself valid JSON. -/
theorem parse_gemini_not_first_balanced :
    parseGeminiResponse junkTwoObjects = createFallbackResponse junkTwoObjects
    ∧ parseJson "\x7b\"a\":1\x7d" = some (.obj [("a", .num 1)])
    ∧ parseGeminiResponse junkTwoObjects ≠ .obj [("a", .num 1)] := by
  refine ⟨rfl, rfl, ?_⟩
  intro h
  have hc : (parseGeminiResponse junkTwoObjects).getField "confidence"
      = (Json.obj [("a", Json.num 1)]).getField "confidence" := by rw [h]
  have h70 : (parseGeminiResponse junkTwoObjects).getField "confidence"
      = some (Json.num 70) := rfl
  have hnone : (Json.obj [("a", Json.num 1)]).getField "confidence" = none := rfl
  rw [h70, hnone] at hc
  exact Option.noConfusion hc

/-- C3 amended: the extraction step takes the greedy substring from the
first opening brace to the last closing brace (not the first balanced
object). A response that is itself one JSON document parses losslessly;
when no such slice exists, or the slice fails to parse, the result is the
deterministic fallback, whose English summary is the first 500 characters
of the text followed by "...", with empty collections, one generic doctor
question, confidence 70 and the two default disclaimer blocks. -/
theorem parse_gemini_spec (text : String) (v : Json) :
    (text.toList.head? = some '\x7b' → text.toList.getLast? = some '\x7d' →
      parseJson text = some v → parseGeminiResponse text = v)
    ∧ (extractJsonSlice text = none →
        parseGeminiResponse text = createFallbackResponse text)
    ∧ (∀ sl, extractJsonSlice text = some sl → parseJson sl = none →
        parseGeminiResponse text = createFallbackResponse text)
    ∧ (createFallbackResponse text).getField "confidence" = some (.num 70)
    ∧ (∃ su, (createFallbackResponse text).getField "summary" = some su
        ∧ su.getField "english" = some (.str (jsSubstring0 text 500 ++ "...")))
    ∧ (createFallbackResponse text).getField "keyFindings" = some (.arr [])
    ∧ (createFallbackResponse text).getField "abnormalValues" = some (.arr [])
    ∧ (createFallbackResponse text).getField "recommendations"
        = some (.obj [("lifestyle", .arr []), ("medical", .arr [])])
    ∧ (createFallbackResponse text).getField "riskFactors" = some (.arr [])
    ∧ (createFallbackResponse text).getField "followUpSuggestions" = some (.arr [])
    ∧ (createFallbackResponse text).getField "doctorQuestions"
        = some (.arr [fallbackDoctorQuestion])
    ∧ (createFallbackResponse text).getField "disclaimers" = some defaultDisclaimers := by
  refine ⟨?_, ?_, ?_, rfl, ⟨_, rfl, rfl⟩, rfl, rfl, rfl, rfl, rfl, rfl, rfl⟩
  · intro h1 h2 h3
    unfold parseGeminiResponse
    rw [extractJsonSlice_whole text h1 h2]
    dsimp only
    rw [h3]
  · intro h
    unfold parseGeminiResponse
    rw [h]
  · intro sl hsl hp
    unfold parseGeminiResponse
    rw [hsl]
    dsimp only
    rw [hp]

/-- C3 amended witness: a pure JSON-object response is returned losslessly
parsed; a brace-free response yields the fallback. -/
theorem parse_gemini_spec_witness :
    parseGeminiResponse "\x7b\"ok\":true\x7d" = .obj [("ok", .bool true)]
    ∧ parseGeminiResponse "no braces at all" = createFallbackResponse "no braces at all" :=
  ⟨(parse_gemini_spec "\x7b\"ok\":true\x7d" (.obj [("ok", .bool true)])).1 rfl rfl rfl,
   (parse_gemini_spec "no braces at all" .null).2.1 rfl⟩

/-- Admitted times are request times. -/
theorem runAdmitted_subset (maxAttempts : Nat) (windowMs : Int) :
    ∀ (ts : List Int) (s : List Int), ∀ x ∈ runAdmitted maxAttempts windowMs s ts, x ∈ ts := by
  intro ts
  induction ts with
  | nil =>
    intro s x hx
    simp [runAdmitted] at hx
  | cons now ts ih =>
    intro s x hx
    unfold runAdmitted at hx
    cases hstep : limitStep maxAttempts windowMs now s with
    | mk outcome s2 =>
      rw [hstep] at hx
      cases outcome with
      | allowed =>
        dsimp only at hx
        rcases List.mem_cons.mp hx with rfl | hm
        · exact List.mem_cons_self x ts
        · exact List.mem_cons_of_mem now (ih s2 x hm)
      | rejected st ra =>
        dsimp only at hx
        exact List.mem_cons_of_mem now (ih s2 x hx)

/-- Core sliding-window invariant of the limiter: with a state whose
in-window content counts toward the bound, a run over later, ordered
request times never brings the total number of admissions inside the
window `(lo, lo + windowMs]` above the bound. -/
theorem runAdmitted_window_aux (maxAttempts : Nat) (windowMs : Int) (lo : Int) :
    ∀ (ts : List Int), ts.Pairwise (· ≤ ·) →
    ∀ (s : List Int), (∀ a ∈ s, ∀ n ∈ ts, a ≤ n) →
    (s.filter (fun a => decide (lo < a))).length ≤ maxAttempts →
    (s.filter (fun a => decide (lo < a))).length
      + ((runAdmitted maxAttempts windowMs s ts).filter
          (fun x => decide (lo < x) && decide (x ≤ lo + windowMs))).length
      ≤ maxAttempts := by
  intro ts
  induction ts with
  | nil =>
    intro _ s _ hs
    simpa [runAdmitted] using hs
  | cons now ts ih =>
    intro hpw s hord hs
    rw [List.pairwise_cons] at hpw
    obtain ⟨hnow_le, hpw2⟩ := hpw
    by_cases hin : now ≤ lo + windowMs
    · have hid : ((s.filter (fun time => decide (time > now - windowMs))).filter
            (fun a => decide (lo < a)))
          = s.filter (fun a => decide (lo < a)) := by
        rw [List.filter_filter]
        apply List.filter_congr
        intro a _
        by_cases hla : lo < a
        · have h2 : a > now - windowMs := by omega
          simp [hla, h2]
        · simp [hla]
      unfold runAdmitted
      by_cases hlen : (s.filter (fun time => decide (time > now - windowMs))).length
          ≥ maxAttempts
      · -- rejected: state shrinks to the filtered attempts, nothing admitted
        simp only [limitStep]
        rw [if_pos hlen]
        dsimp only
        have hord2 : ∀ a ∈ s.filter (fun time => decide (time > now - windowMs)),
            ∀ n ∈ ts, a ≤ n :=
          fun a ha n hn => hord a (List.mem_filter.mp ha).1 n (List.mem_cons_of_mem now hn)
        have hs2 : ((s.filter (fun time => decide (time > now - windowMs))).filter
            (fun a => decide (lo < a))).length ≤ maxAttempts := by
          rw [hid]
          exact hs
        have := ih hpw2 (s.filter (fun time => decide (time > now - windowMs))) hord2 hs2
        rw [hid] at this
        exact this
      · -- admitted: now joins the state
        simp only [limitStep]
        rw [if_neg hlen]
        dsimp only
        push_neg at hlen
        have hord2 : ∀ a ∈ s.filter (fun time => decide (time > now - windowMs)) ++ [now],
            ∀ n ∈ ts, a ≤ n := by
          intro a ha n hn
          rcases List.mem_append.mp ha with hmem | hsing
          · exact hord a (List.mem_filter.mp hmem).1 n (List.mem_cons_of_mem now hn)
          · rw [List.mem_singleton] at hsing
            subst hsing
            exact hnow_le n hn
        have hsub : (s.filter (fun a => decide (lo < a))).length
            ≤ (s.filter (fun time => decide (time > now - windowMs))).length := by
          rw [← hid]
          exact List.length_filter_le _ _
        by_cases hnlo : lo < now
        · have hwin : (decide (lo < now) && decide (now ≤ lo + windowMs)) = true := by
            simp [hnlo, hin]
          rw [List.filter_cons, hwin]
          simp only [if_true, List.length_cons]
          have hs2eq : ((s.filter (fun time => decide (time > now - windowMs)) ++ [now]).filter
              (fun a => decide (lo < a))).length
              = (s.filter (fun a => decide (lo < a))).length + 1 := by
            rw [List.filter_append, hid]
            simp [hnlo]
          have hs2 : ((s.filter (fun time => decide (time > now - windowMs)) ++ [now]).filter
              (fun a => decide (lo < a))).length ≤ maxAttempts := by
            rw [hs2eq]
            omega
          have := ih hpw2 _ hord2 hs2
          rw [hs2eq] at this
          omega
        · have hwin : (decide (lo < now) && decide (now ≤ lo + windowMs)) = false := by
            simp [hnlo]
          rw [List.filter_cons, hwin]
          simp only [Bool.false_eq_true, if_false]
          have hs2eq : ((s.filter (fun time => decide (time > now - windowMs)) ++ [now]).filter
              (fun a => decide (lo < a))).length
              = (s.filter (fun a => decide (lo < a))).length := by
            rw [List.filter_append, hid]
            simp [hnlo]
          have hs2 : ((s.filter (fun time => decide (time > now - windowMs)) ++ [now]).filter
              (fun a => decide (lo < a))).length ≤ maxAttempts := by
            rw [hs2eq]
            exact hs
          have := ih hpw2 _ hord2 hs2
          rw [hs2eq] at this
          omega
    · -- the request lies beyond the window: no admission can land in it
      have hall : ((runAdmitted maxAttempts windowMs s (now :: ts)).filter
          (fun x => decide (lo < x) && decide (x ≤ lo + windowMs))) = [] := by
        apply List.filter_eq_nil_iff.mpr
        intro x hx
        have hxts := runAdmitted_subset maxAttempts windowMs (now :: ts) s x hx
        have hge : now ≤ x := by
          rcases List.mem_cons.mp hxts with rfl | hm
          · omega
          · exact hnow_le x hm
        simp only [Bool.and_eq_true, decide_eq_true_eq, not_and]
        intro _
        omega
      rw [hall]
      simpa using hs

/-- C8: for ordered request times through `sensitiveOperationLimit`, at
most `maxAttempts` requests are admitted inside any sliding window
`(lo, lo + windowMs]`; and a rejected request is answered 429 with a
`retryAfter` hint computed from the oldest still-counted attempt — the
ceiling of the milliseconds until that attempt leaves the window, divided
by 1000. -/
theorem sensitive_operation_limit_spec (maxAttempts : Nat) (windowMs : Int)
    (hmax : 0 < maxAttempts) (ts : List Int) (hts : ts.Pairwise (· ≤ ·)) (lo : Int)
    (s : List Int) (hsorted : s.Pairwise (· ≤ ·)) (now : Int) :
    ((runAdmitted maxAttempts windowMs [] ts).filter
        (fun x => decide (lo < x) && decide (x ≤ lo + windowMs))).length ≤ maxAttempts
    ∧ (∀ st ra s2, limitStep maxAttempts windowMs now s = (.rejected st ra, s2) →
        st = 429 ∧ ∃ t0, t0 ∈ s ∧ now - windowMs < t0
          ∧ (∀ a ∈ s, now - windowMs < a → t0 ≤ a)
          ∧ ra = jsCeilDiv (t0 + windowMs - now) 1000) := by
  constructor
  · have := runAdmitted_window_aux maxAttempts windowMs lo ts hts []
      (by intro a ha; exact absurd ha (List.not_mem_nil a)) (by simp)
    simpa using this
  · intro st ra s2 hstep
    unfold limitStep at hstep
    by_cases hlen : (s.filter (fun time => decide (time > now - windowMs))).length
        ≥ maxAttempts
    · rw [if_pos hlen] at hstep
      obtain ⟨t0, tl, hcons⟩ : ∃ t0 tl,
          s.filter (fun time => decide (time > now - windowMs)) = t0 :: tl := by
        cases hc : s.filter (fun time => decide (time > now - windowMs)) with
        | nil =>
          rw [hc] at hlen
          simp at hlen
          omega
        | cons a l => exact ⟨a, l, rfl⟩
      rw [hcons] at hstep
      rw [Prod.mk.injEq] at hstep
      obtain ⟨hout, _⟩ := hstep
      rw [LimitOutcome.rejected.injEq] at hout
      obtain ⟨h429, hra⟩ := hout
      have hmemf : t0 ∈ s.filter (fun time => decide (time > now - windowMs)) := by
        rw [hcons]
        exact List.mem_cons_self t0 tl
      have hmem := (List.mem_filter.mp hmemf).1
      have ht0w : now - windowMs < t0 := by
        have := (List.mem_filter.mp hmemf).2
        simpa using this
      refine ⟨h429.symm, t0, hmem, ht0w, ?_, hra.symm⟩
      intro a ha haw
      have hmema : a ∈ s.filter (fun time => decide (time > now - windowMs)) :=
        List.mem_filter.mpr ⟨ha, by simpa using haw⟩
      rw [hcons] at hmema
      rcases List.mem_cons.mp hmema with rfl | htl
      · omega
      · have hfsorted : (s.filter
            (fun time => decide (time > now - windowMs))).Pairwise (· ≤ ·) :=
          hsorted.filter _
        rw [hcons, List.pairwise_cons] at hfsorted
        exact hfsorted.1 a htl
    · rw [if_neg hlen] at hstep
      rw [Prod.mk.injEq] at hstep
      exact absurd hstep.1 (by simp)

/-- C8 witness: with limit 2 per 1000ms, a burst of ordered requests
admits at most 2 into the window, and a concrete over-limit request is
rejected with status 429. -/
theorem sensitive_operation_limit_witness :
    ((runAdmitted 2 1000 [] [0, 1, 2, 3]).filter
        (fun x => decide ((-1 : Int) < x) && decide (x ≤ -1 + 1000))).length ≤ 2
    ∧ (429 : Nat) = 429 :=
  have h := sensitive_operation_limit_spec 2 1000 (by norm_num) [0, 1, 2, 3]
    (by norm_num [List.pairwise_cons]) (-1) [5, 6] (by norm_num [List.pairwise_cons]) 7
  ⟨h.1, (h.2 429 1 [5, 6] rfl).1.symm⟩

/-- An upsert into a list with at most one match leaves exactly one
matching row. -/
theorem upsertFirst_count_one (p : VitalsDoc → Bool) (upd : VitalsDoc → VitalsDoc)
    (ins : VitalsDoc) (hupd : ∀ x, p (upd x) = true) (hins : p ins = true) :
    ∀ xs : List VitalsDoc, (xs.filter p).length ≤ 1 →
      ((upsertFirst p upd ins xs).filter p).length = 1 := by
  intro xs
  induction xs with
  | nil =>
    intro _
    simp [upsertFirst, hins]
  | cons x xs ih =>
    intro hc
    by_cases hx : p x
    · rw [List.filter_cons, hx] at hc
      simp only [if_true] at hc
      rw [List.length_cons] at hc
      unfold upsertFirst
      rw [if_pos hx, List.filter_cons, hupd x]
      simp only [if_true, List.length_cons]
      omega
    · rw [List.filter_cons] at hc
      rw [Bool.eq_false_iff.mpr hx] at hc
      simp only [Bool.false_eq_true, if_false] at hc
      unfold upsertFirst
      rw [if_neg hx, List.filter_cons]
      rw [Bool.eq_false_iff.mpr hx]
      simp only [Bool.false_eq_true, if_false]
      exact ih hc

/-- Every matching row after an upsert into a list with at most one match
is the updated or the inserted row, so it satisfies any property `Q` both
of them satisfy. -/
theorem upsertFirst_prop (p : VitalsDoc → Bool) (upd : VitalsDoc → VitalsDoc)
    (ins : VitalsDoc) (Q : VitalsDoc → Prop)
    (hupd : ∀ x, Q (upd x)) (hins : Q ins) :
    ∀ xs : List VitalsDoc, (xs.filter p).length ≤ 1 →
      ∀ r ∈ upsertFirst p upd ins xs, p r = true → Q r := by
  intro xs
  induction xs with
  | nil =>
    intro _ r hr _
    rw [upsertFirst, List.mem_singleton] at hr
    subst hr
    exact hins
  | cons x xs ih =>
    intro hc r hr hpr
    by_cases hx : p x
    · rw [upsertFirst, if_pos hx] at hr
      rcases List.mem_cons.mp hr with rfl | hmem
      · exact hupd x
      · exfalso
        rw [List.filter_cons, hx] at hc
        simp only [if_true, List.length_cons] at hc
        have : r ∈ xs.filter p := List.mem_filter.mpr ⟨hmem, hpr⟩
        have := List.length_pos.mpr (List.ne_nil_of_mem this)
        omega
    · rw [upsertFirst, if_neg hx] at hr
      rcases List.mem_cons.mp hr with rfl | hmem
      · rw [hpr] at hx
        exact absurd rfl hx
      · refine ih ?_ r hmem hpr
        rw [List.filter_cons] at hc
        rw [Bool.eq_false_iff.mpr hx] at hc
        simpa using hc

/-- Rows no later than `t` and pairwise more than 24 hours apart have at
most one member inside the ±24h window around `t`. -/
theorem window_count_le_one (t : Int) (m : List VitalsDoc)
    (hpast : ∀ r ∈ m, r.recordedAt ≤ t)
    (hgap : m.Pairwise (fun a b => dayMs < |a.recordedAt - b.recordedAt|)) :
    (m.filter (inBmiWindow t)).length ≤ 1 := by
  induction m with
  | nil => simp
  | cons x xs ih =>
    rw [List.pairwise_cons] at hgap
    obtain ⟨hx, hxs⟩ := hgap
    by_cases hw : inBmiWindow t x
    · rw [List.filter_cons, hw]
      simp only [if_true, List.length_cons]
      have hnil : xs.filter (inBmiWindow t) = [] := by
        apply List.filter_eq_nil_iff.mpr
        intro b hb hwb
        have h1 := hx b hb
        have h2 := hpast x (List.mem_cons_self x xs)
        have h3 := hpast b (List.mem_cons_of_mem x hb)
        unfold inBmiWindow at hw hwb
        simp only [Bool.and_eq_true, decide_eq_true_eq] at hw hwb
        rw [lt_abs] at h1
        omega
      rw [hnil]
      simp
    · rw [List.filter_cons, Bool.eq_false_iff.mpr hw]
      simp only [Bool.false_eq_true, if_false]
      exact ih (fun r hr => hpast r (List.mem_cons_of_mem x hr)) hxs

/-- C5: saving a weight reading for a user with a prior active height
reading leaves exactly one `bmi` row in the ±24h window around the
weight's timestamp — updating a matching row rather than inserting a
second one — and that row carries BMI = weight / (height in metres)²
rounded to one decimal, unit kg/m², source `calculated`, dated at the
weight reading. The reachability hypotheses say the existing `bmi` rows
are no later than the new reading and pairwise more than 24 hours apart,
which every history of forward-dated weight saves maintains. -/
theorem bmi_upsert_exactly_one (rows : List VitalsDoc) (u : String) (w hv : ℚ)
    (t : Int) (hgtDoc d : VitalsDoc)
    (hH : latestHeight rows u = some hgtDoc)
    (hHv : hgtDoc.value.numeric = some hv)
    (_hhv : 0 < hv) (hw : 0 < w)
    (hdt : d.type = some "weight") (hdu : d.user = u)
    (hdn : d.value.numeric = some w) (hdr : d.recordedAt = t)
    (hpast : ∀ r ∈ rows, isBmiOf u r = true → r.recordedAt ≤ t)
    (hgap : (rows.filter (isBmiOf u)).Pairwise
        (fun a b => dayMs < |a.recordedAt - b.recordedAt|)) :
    ((saveVitals rows d).filter (isBmiMatch u t)).length = 1
    ∧ ∀ r ∈ saveVitals rows d, isBmiMatch u t r = true →
        r.value.numeric = some (round1 (w / ((hv / 100) * (hv / 100))))
        ∧ r.unit = some "kg/m²"
        ∧ r.source = "calculated"
        ∧ r.recordedAt = t := by
  have hw0 : (w == 0) = false := by
    rw [beq_eq_false_iff_ne]
    exact ne_of_gt hw
  have hsave : saveVitals rows d =
      upsertFirst (isBmiMatch u t)
        (bmiUpdateDoc u (round1 (w / ((hv / 100) * (hv / 100)))) t)
        (bmiInsertDoc u (round1 (w / ((hv / 100) * (hv / 100)))) t) rows ++ [d] := by
    unfold saveVitals vitalsPreSave
    rw [hdt, hdu, hH, hdn]
    simp only [beq_self_eq_true, if_true, hw0, Bool.false_eq_true, if_false, hHv, hdr]
  have hcount : (rows.filter (isBmiMatch u t)).length ≤ 1 := by
    have hsplit : rows.filter (isBmiMatch u t)
        = (rows.filter (isBmiOf u)).filter (inBmiWindow t) := by
      rw [List.filter_filter]
      exact (List.filter_congr (fun a _ => by unfold isBmiMatch; rw [Bool.and_comm])).symm
    rw [hsplit]
    exact window_count_le_one t _
      (fun r hr =>
        hpast r (List.mem_filter.mp hr).1 (List.mem_filter.mp hr).2) hgap
  have hmatch_upd : ∀ x, isBmiMatch u t (bmiUpdateDoc u
      (round1 (w / ((hv / 100) * (hv / 100)))) t x) = true := by
    intro x
    unfold isBmiMatch isBmiOf inBmiWindow bmiUpdateDoc dayMs
    simp
  have hmatch_ins : isBmiMatch u t (bmiInsertDoc u
      (round1 (w / ((hv / 100) * (hv / 100)))) t) = true := by
    unfold isBmiMatch isBmiOf inBmiWindow bmiInsertDoc dayMs
    simp
  have hd : isBmiMatch u t d = false := by
    unfold isBmiMatch isBmiOf
    rw [hdt]
    simp
  constructor
  · rw [hsave, List.filter_append, List.filter_cons, hd]
    simp only [Bool.false_eq_true, if_false, List.filter_nil, List.append_nil]
    exact upsertFirst_count_one _ _ _ hmatch_upd hmatch_ins rows hcount
  · intro r hr hpr
    rw [hsave] at hr
    rcases List.mem_append.mp hr with hmem | hd2
    · refine upsertFirst_prop _ _ _
        (fun r => r.value.numeric = some (round1 (w / ((hv / 100) * (hv / 100))))
          ∧ r.unit = some "kg/m²" ∧ r.source = "calculated" ∧ r.recordedAt = t)
        (fun x => ⟨rfl, rfl, rfl, rfl⟩) ⟨rfl, rfl, rfl, rfl⟩ rows hcount r hmem hpr
    · rw [List.mem_singleton] at hd2
      subst hd2
      rw [hpr] at hd
      exact absurd hd (by simp)

/-- A stored height reading of 170cm. -/
def heightRow : VitalsDoc :=
  { user := "u1", type := some "height",
    value := { numeric := some 170, text := none, systolic := none, diastolic := none },
    unit := some "cm", recordedAt := 0, notes := "", source := "manual", isActive := true }

/-- A weight reading of `w` kg at time `t`. -/
def weightRow (t : Int) (w : ℚ) : VitalsDoc :=
  { user := "u1", type := some "weight",
    value := { numeric := some w, text := none, systolic := none, diastolic := none },
    unit := some "kg", recordedAt := t, notes := "", source := "manual", isActive := true }

/-- C5 witness: after saving a height, a weight, and a second weight one
hour later, exactly one `bmi` row lies in the window around the second
weight — the first BMI row was updated, not duplicated. -/
theorem bmi_upsert_exactly_one_witness :
    ((saveVitals (saveVitals [heightRow] (weightRow 1000 70))
        (weightRow 3601000 71)).filter (isBmiMatch "u1" 3601000)).length = 1 :=
  (bmi_upsert_exactly_one (saveVitals [heightRow] (weightRow 1000 70)) "u1" 71 170
    3601000 heightRow (weightRow 3601000 71)
    rfl rfl (by norm_num) (by norm_num) rfl rfl rfl rfl
    (by decide)
    (by
      obtain ⟨z, hz⟩ : ∃ z, (saveVitals [heightRow] (weightRow 1000 70)).filter
          (isBmiOf "u1") = [z] := ⟨_, rfl⟩
      rw [hz]
      exact List.pairwise_singleton _ z)).1

/-- C9 witness: an analysis with no optional fields at all (a null JSON
payload) produces an insight with both default disclaimer blocks, empty
key findings, confidence 85 and the fixed model identifier. -/
theorem insight_disclaimers_and_defaults_witness :
    (insightPreSave (mkInsight "u1" "f1" "Blood Test" Json.null)).disclaimers.aiDisclaimer
        = some aiDisclaimerBlock
    ∧ (insightPreSave (mkInsight "u1" "f1" "Blood Test" Json.null)).confidence = .num 85
    ∧ (insightPreSave (mkInsight "u1" "f1" "Blood Test" Json.null)).keyFindings = .arr []
    ∧ (insightPreSave (mkInsight "u1" "f1" "Blood Test" Json.null)).model
        = "gemini-2.5-flash" :=
  have h := insight_disclaimers_and_defaults "u1" "f1" "Blood Test" Json.null _ rfl
  ⟨(h.2.2.1 rfl).1, h.2.2.2.2.2.2.2.2.2.2.1 rfl, h.2.2.2.2.1 rfl, h.2.2.2.2.2.2.2.2.2.2.2⟩

end HealthMate
